import Mathlib

/-!
Shallow embedding of the geoportal-app core (src/app/pdf_parser.py and
src/app/filter_logic.py) and proofs about it.

Python strings are modelled as Lean `String`/`List Char`; Python `None` and
missing dict keys are both modelled as `Option.none`; Python floats are
modelled as exact rationals `ℚ`; Python ints as `Int`.  Unicode case folding
in Python (`str.lower`, `re.IGNORECASE`) is modelled for the character set
actually in play: ASCII letters plus the Polish letters used by the data.
-/

/-- Python `\s` whitespace class (ASCII part, which is all the data uses). -/
def isPySpace (c : Char) : Bool :=
  c = ' ' || c = '\t' || c = '\n' || c = '\x0d' || c = '\x0c' || c = '\x0b'

/-- Python `str.lower` restricted to ASCII letters and Polish letters. -/
def pyLowerChar (c : Char) : Char :=
  if 'A' ≤ c ∧ c ≤ 'Z' then Char.ofNat (c.toNat + 32)
  else if c = 'Ą' then 'ą'
  else if c = 'Ć' then 'ć'
  else if c = 'Ę' then 'ę'
  else if c = 'Ł' then 'ł'
  else if c = 'Ń' then 'ń'
  else if c = 'Ó' then 'ó'
  else if c = 'Ś' then 'ś'
  else if c = 'Ź' then 'ź'
  else if c = 'Ż' then 'ż'
  else c

/-- Python `\w` word-character class, restricted to ASCII alphanumerics,
underscore and the Polish letters. -/
def isWordChar (c : Char) : Bool :=
  c.isAlphanum || c = '_' ||
  c = 'ą' || c = 'ć' || c = 'ę' || c = 'ł' || c = 'ń' || c = 'ó' ||
  c = 'ś' || c = 'ź' || c = 'ż' ||
  c = 'Ą' || c = 'Ć' || c = 'Ę' || c = 'Ł' || c = 'Ń' || c = 'Ó' ||
  c = 'Ś' || c = 'Ź' || c = 'Ż'

/-- `str.strip()`: drop leading and trailing whitespace. -/
def pyStripList (cs : List Char) : List Char :=
  ((cs.dropWhile isPySpace).reverse.dropWhile isPySpace).reverse

def pyStrip (s : String) : String :=
  String.mk (pyStripList s.data)

/-- Python `str.lower` over a whole string. -/
def pyLower (s : String) : String :=
  String.mk (s.data.map pyLowerChar)

/-- `needle` is a contiguous run starting at the head of `hay`. -/
def startsWithB : List Char → List Char → Bool
  | [], _ => true
  | _ :: _, [] => false
  | a :: as, b :: bs => a = b && startsWithB as bs

/-- Python substring containment `needle in hay`. -/
def containsSub (needle : List Char) : List Char → Bool
  | [] => startsWithB needle []
  | c :: t => startsWithB needle (c :: t) || containsSub needle t

/-- Python `in` on strings. -/
def pyIn (needle hay : String) : Bool :=
  containsSub needle.data hay.data

/-- Numeric value of a digit run (most significant first). -/
def digitsToNat (ds : List Char) : Nat :=
  ds.foldl (fun n c => n * 10 + (c.toNat - 48)) 0

/-- First maximal digit run in a char list, i.e. Python
`re.search(r'(\d+)', s)` capture. -/
def firstDigitRun : List Char → Option (List Char)
  | [] => none
  | c :: t => if c.isDigit then some (c :: t.takeWhile Char.isDigit)
              else firstDigitRun t

/-- First integer in a string, as read by `filter_by_discount`. -/
def firstIntIn (s : String) : Option Nat :=
  (firstDigitRun s.data).map digitsToNat

/-- Digit sequence with Python underscore grouping: `digit (digit | _ digit)*`.
Returns the value when the grouping is well formed. -/
def digitsGrouped : List Char → Nat → Option Nat
  | [], n => some n
  | '_' :: d :: t, n => if d.isDigit then digitsGrouped t (n * 10 + (d.toNat - 48)) else none
  | '_' :: [], _ => none
  | d :: t, n => if d.isDigit then digitsGrouped t (n * 10 + (d.toNat - 48)) else none

/-- Python `int(s)`: optional surrounding whitespace, optional sign, digits
with underscore grouping; `none` models a raised `ValueError`. -/
def pyIntParse (s : String) : Option Int :=
  match pyStripList s.data with
  | [] => none
  | c :: t =>
    let signed : Bool × List Char :=
      if c = '-' then (true, t) else if c = '+' then (false, t) else (false, c :: t)
    match signed.2 with
    | [] => none
    | d :: rest =>
      if d.isDigit then
        match digitsGrouped rest (d.toNat - 48) with
        | some n => some (if signed.1 then -(n : Int) else (n : Int))
        | none => none
      else none

/-- Python `float(s)` on a string containing only digits, `.` and `-`
(the only shapes `safe_float` can feed it): `-? (D+ (. D*)? | . D+)`.
`none` models a raised `ValueError`. -/
def pyFloatParse (cs : List Char) : Option ℚ :=
  let core : List Char → Option ℚ := fun l =>
    let intPart := l.takeWhile Char.isDigit
    let rest := l.dropWhile Char.isDigit
    match rest with
    | [] => if intPart = [] then none else some ((digitsToNat intPart : ℚ))
    | '.' :: frac =>
      if frac.all Char.isDigit ∧ (intPart ≠ [] ∨ frac ≠ []) then
        some ((digitsToNat intPart : ℚ) + (digitsToNat frac : ℚ) / ((10 : ℚ) ^ frac.length))
      else none
    | _ => none
  match cs with
  | '-' :: t => (core t).map (fun q => -q)
  | _ => core cs

/-- The cleaning step of `safe_float`: map `,` to `.`, then keep only digits,
dots and minus signs (`re.sub(r'[^\d.-]', '', ...)`). -/
def cleanNumeric (s : String) : List Char :=
  (s.data.map (fun c => if c = ',' then '.' else c)).filter
    (fun c => c.isDigit || c = '.' || c = '-')

/-- `safe_float` from src/app/pdf_parser.py.  `value = none` covers both
Python `None` and non-string inputs; an empty string is falsy. -/
def safe_float (value : Option String) (default : Option ℚ := none) : Option ℚ :=
  match value with
  | none => default
  | some s =>
    if s = "" then default
    else
      let cleaned := cleanNumeric s
      if cleaned = [] then default
      else match pyFloatParse cleaned with
        | some q => some q
        | none => default

/-- `safe_int` from src/app/pdf_parser.py: `re.search(r'^\d+', value.strip())`. -/
def safe_int (value : Option String) (default : Option Int := none) : Option Int :=
  match value with
  | none => default
  | some s =>
    if s = "" then default
    else
      match pyStripList s.data with
      | [] => default
      | c :: t =>
        if c.isDigit then some ((digitsToNat (c :: t.takeWhile Char.isDigit) : Int))
        else default

/-- Matcher for the discount pattern `obni[żz]ka\s+(\d+)\s*%` at the head of
the list, case-insensitively (each text char is folded with `pyLowerChar`).
Returns the captured digit run and the remaining suffix after the match. -/
def matchDiscount (cs : List Char) : Option (List Char × List Char) :=
  match cs with
  | c1 :: c2 :: c3 :: c4 :: c5 :: c6 :: c7 :: rest =>
    if pyLowerChar c1 = 'o' ∧ pyLowerChar c2 = 'b' ∧ pyLowerChar c3 = 'n' ∧
       pyLowerChar c4 = 'i' ∧ (pyLowerChar c5 = 'ż' ∨ pyLowerChar c5 = 'z') ∧
       pyLowerChar c6 = 'k' ∧ pyLowerChar c7 = 'a' then
      if rest.takeWhile isPySpace = [] then none
      else
        if (rest.dropWhile isPySpace).takeWhile Char.isDigit = [] then none
        else
          match ((rest.dropWhile isPySpace).dropWhile Char.isDigit).dropWhile isPySpace with
          | '%' :: tail => some ((rest.dropWhile isPySpace).takeWhile Char.isDigit, tail)
          | _ => none
    else none
  | _ => none

/-- Leftmost match of the discount pattern: Python `re.search`. -/
def searchDiscount : List Char → Option (List Char)
  | [] => none
  | c :: t =>
    match matchDiscount (c :: t) with
    | some (ds, _) => some ds
    | none => searchDiscount t

/-- `re.sub(r'obni[żz]ka\s+\d+\s*%', '', text, flags=re.IGNORECASE)`:
remove every (leftmost-first, non-overlapping) match.  Structured on a fuel
argument so the kernel can evaluate it; fuel `cs.length` is always enough
because a match consumes at least one character. -/
def subDiscountAux : Nat → List Char → List Char
  | 0, _ => []
  | _, [] => []
  | n + 1, c :: t =>
    match matchDiscount (c :: t) with
    | some (_, rest) => subDiscountAux n rest
    | none => c :: subDiscountAux n t

def subDiscount (cs : List Char) : List Char :=
  subDiscountAux cs.length cs

/-- `extract_attributes_and_discount` from src/app/pdf_parser.py.
The search runs over the lowercased text; the removal runs over the original
text case-insensitively.  Returns `(attributes, discount)`. -/
def extract_attributes_and_discount (text : Option String) : String × String :=
  match text with
  | none => ("", "")
  | some s =>
    if s = "" then ("", "")
    else
      match searchDiscount (s.data.map pyLowerChar) with
      | some ds =>
        (String.mk (pyStripList (subDiscount s.data)), "obniżka " ++ String.mk ds ++ "%")
      | none => (pyStrip s, "")

/-- Python `str.split(sep)` for a single-character separator.
`"".split(sep)` is `[""]`. -/
def splitOnChar (sep : Char) : List Char → List (List Char)
  | [] => [[]]
  | c :: t =>
    let r := splitOnChar sep t
    if c = sep then [] :: r
    else match r with
      | [] => [[c]]
      | h :: t2 => (c :: h) :: t2

/-- `extract_property_type_and_character` from src/app/pdf_parser.py:
split the stripped text on the first line breaks; first segment is the type,
second (when present) the character. -/
def extract_property_type_and_character (text : Option String) : String × String :=
  match text with
  | none => ("", "")
  | some s =>
    if s = "" then ("", "")
    else
      match splitOnChar '\n' (pyStripList s.data) with
      | [] => ("", "")
      | [t] => (String.mk t, "")
      | t :: c :: _ => (String.mk t, String.mk c)

/-- The `(?:[-\s]+\w+)*` tail of the county pattern: greedily take
separator+word repetitions.  Fuel-structured for kernel evaluation; each
repetition consumes at least two characters, so fuel `cs.length` suffices. -/
def powiatReps : Nat → List Char → List Char
  | 0, _ => []
  | n + 1, cs =>
    let sep := cs.takeWhile (fun c => c = '-' || isPySpace c)
    if sep = [] then []
    else
      let rest := cs.dropWhile (fun c => c = '-' || isPySpace c)
      let w := rest.takeWhile isWordChar
      if w = [] then []
      else sep ++ w ++ powiatReps n (rest.dropWhile isWordChar)

/-- Try the pattern `podkarpackie/\s*(\w+(?:[-\s]+\w+)*)` at the head of the
list; returns the captured group. -/
def matchPowiatAt (cs : List Char) : Option (List Char) :=
  if startsWithB ("podkarpackie/".data) cs then
    let rest := cs.drop ("podkarpackie/".data).length
    let afterWs := rest.dropWhile isPySpace
    let w1 := afterWs.takeWhile isWordChar
    if w1 = [] then none
    else
      let tail := afterWs.dropWhile isWordChar
      some (w1 ++ powiatReps tail.length tail)
  else none

/-- Leftmost match for the county pattern (Python `re.search`). -/
def searchPowiat : List Char → Option (List Char)
  | [] => none
  | c :: t =>
    match matchPowiatAt (c :: t) with
    | some g => some g
    | none => searchPowiat t

/-- `get_powiat` from src/app/filter_logic.py: extract the county token from
a location path; the captured group is stripped. -/
def get_powiat (polozenie_str : Option String) : Option String :=
  match polozenie_str with
  | none => none
  | some s =>
    if s = "" then none
    else match searchPowiat s.data with
      | some g => some (String.mk (pyStripList g))
      | none => none

/-- Gregorian leap year, as `datetime` uses it. -/
def isLeapYear (y : Int) : Bool :=
  y % 4 = 0 ∧ (y % 100 ≠ 0 ∨ y % 400 = 0)

/-- Length of month `m` in year `y` (1-based months). -/
def daysInMonth (y m : Int) : Int :=
  if m = 1 then 31
  else if m = 2 then (if isLeapYear y then 29 else 28)
  else if m = 3 then 31
  else if m = 4 then 30
  else if m = 5 then 31
  else if m = 6 then 30
  else if m = 7 then 31
  else if m = 8 then 31
  else if m = 9 then 30
  else if m = 10 then 31
  else if m = 11 then 30
  else if m = 12 then 31
  else 0

/-- Days in year `y` strictly before month `m`. -/
def daysBeforeMonth (y m : Int) : Int :=
  (if m = 1 then 0
   else if m = 2 then 31
   else if m = 3 then 59
   else if m = 4 then 90
   else if m = 5 then 120
   else if m = 6 then 151
   else if m = 7 then 181
   else if m = 8 then 212
   else if m = 9 then 243
   else if m = 10 then 273
   else if m = 11 then 304
   else 334) +
  (if 3 ≤ m ∧ isLeapYear y then 1 else 0)

/-- Proleptic-Gregorian day ordinal of a calendar date, mirroring
`datetime.toordinal`: day 1 is 0001-01-01. -/
def dateOrdinal (y m d : Int) : Int :=
  365 * (y - 1) + (y - 1) / 4 - (y - 1) / 100 + (y - 1) / 400 +
    daysBeforeMonth y m + d

/-- `parse_auction_date` from src/app/filter_logic.py: strip, split on line
breaks, read the first segment as `day.month.year`, build a date (the time
part is discarded).  Any failure — wrong arity, non-numeric part, components
out of `datetime`'s range — yields `none`.  The result is the date's day
ordinal. -/
def parse_auction_date (date_string : String) : Option Int :=
  match splitOnChar '\n' (pyStripList date_string.data) with
  | [] => none
  | datePart :: _ =>
    match splitOnChar '.' datePart with
    | [a, b, c] =>
      match pyIntParse (String.mk a), pyIntParse (String.mk b), pyIntParse (String.mk c) with
      | some d, some m, some y =>
        if 1 ≤ y ∧ y ≤ 9999 ∧ 1 ≤ m ∧ m ≤ 12 ∧ 1 ≤ d ∧ d ≤ daysInMonth y m
        then some (dateOrdinal y m d)
        else none
      | _, _, _ => none
    | _ => none

/-- An auction record: the dictionary built by `process_table_row`.
Field names are ASCII transliterations of the Python keys; `none` models
both an absent key and a present `None` value. -/
structure Record where
  lp : Option Int := none
  data_godzina : Option String := none
  miejsce : Option String := none
  polozenie : Option String := none
  forma : Option String := none
  rodzaj_przetargu : Option String := none
  typ_nieruchomosci : Option String := none
  charakter_nieruchomosci : Option String := none
  atrybuty : Option String := none
  obnizka : Option String := none
  powierzchnia_ogolna : Option ℚ := none
  powierzchnia_ur : Option ℚ := none
  cena_wywolawcza : Option ℚ := none
  kolejny_przetarg : Option Int := none
  uwagi : Option String := none
deriving DecidableEq, Repr

/-- Truthiness of an optional string: present and non-empty. -/
def strTruthy : Option String → Bool
  | none => false
  | some s => s ≠ ""

/-- Truthiness of an optional integer: present and non-zero. -/
def intTruthy : Option Int → Bool
  | none => false
  | some n => n ≠ 0

/-- `process_table_row` from src/app/pdf_parser.py.  A raw row is a list of
optional cells; rows narrower than 12 cells are rejected, fields are read at
fixed positions, and the row is kept only when `lp`, `data_godzina` and
`miejsce` are all truthy. -/
def process_table_row (row : List (Option String)) : Option Record :=
  if row.length < 12 then none
  else
    let cell : Nat → Option String := fun i => (row.getD i none)
    let ad := extract_attributes_and_discount (cell 8)
    let tc := extract_property_type_and_character (cell 7)
    let r : Record := {
      lp := if strTruthy (cell 0) then safe_int (cell 0) else none
      data_godzina := cell 2
      miejsce := cell 3
      polozenie := cell 4
      forma := cell 5
      rodzaj_przetargu := cell 6
      typ_nieruchomosci := some tc.1
      charakter_nieruchomosci := some tc.2
      atrybuty := some ad.1
      obnizka := some ad.2
      powierzchnia_ogolna := safe_float (cell 9)
      powierzchnia_ur := safe_float (cell 10)
      cena_wywolawcza := safe_float (cell 11)
      kolejny_przetarg := safe_int (cell 12)
      uwagi := if row.length > 13 then cell 13 else none }
    if intTruthy r.lp ∧ strTruthy r.data_godzina ∧ strTruthy r.miejsce
    then some r
    else none

/-- `filter_by_location` from src/app/filter_logic.py: keep a record when its
venue (`miejsce`) or location path (`polozenie`) is truthy and contains the
target as a substring. -/
def filter_by_location (records : List Record) (target_location : String) : List Record :=
  records.filter (fun r =>
    (strTruthy r.miejsce && pyIn target_location (r.miejsce.getD "")) ||
    (strTruthy r.polozenie && pyIn target_location (r.polozenie.getD "")))

/-- `filter_by_counties` from src/app/filter_logic.py: keep a record when its
location path is present, resolves to a truthy county, and some target county
name is (case-insensitively) a substring of the resolved county. -/
def filter_by_counties (records : List Record) (target_counties : List String) : List Record :=
  records.filter (fun r =>
    match r.polozenie with
    | none => false
    | some s =>
      match get_powiat (some s) with
      | none => false
      | some p => p ≠ "" && target_counties.any (fun c => pyIn (pyLower c) (pyLower p)))

/-- `filter_by_form` from src/app/filter_logic.py: case-insensitive exact
match of a truthy `forma` against the target form. -/
def filter_by_form (records : List Record) (target_form : String := "sprzedaż") : List Record :=
  records.filter (fun r =>
    strTruthy r.forma && (pyLower (r.forma.getD "") = pyLower target_form))

/-- `filter_by_area` from src/app/filter_logic.py: total area present and
≥ `min_area`; when `max_area` is given, additionally ≤ `max_area`. -/
def filter_by_area (records : List Record) (min_area : ℚ) (max_area : Option ℚ := none) : List Record :=
  let filtered := records.filter (fun r =>
    match r.powierzchnia_ogolna with
    | none => false
    | some a => a ≥ min_area)
  match max_area with
  | none => filtered
  | some mx => filtered.filter (fun r => (r.powierzchnia_ogolna.getD 0) ≤ mx)

/-- `filter_by_price` from src/app/filter_logic.py: each supplied bound
independently requires the price to be present and inside the bound. -/
def filter_by_price (records : List Record) (min_price : Option ℚ := none) (max_price : Option ℚ := none) : List Record :=
  let f1 := match min_price with
    | none => records
    | some mn => records.filter (fun r =>
        match r.cena_wywolawcza with
        | none => false
        | some p => p ≥ mn)
  match max_price with
  | none => f1
  | some mx => f1.filter (fun r =>
      match r.cena_wywolawcza with
      | none => false
      | some p => p ≤ mx)

/-- The per-record test of `filter_by_date_range`: the date field is present,
parses, is ≥ the lower bound, and when an upper bound is active is ≤ it. -/
def dateRangeKeep (min_date : ℚ) (max_date : Option ℚ) (r : Record) : Bool :=
  match r.data_godzina with
  | none => false
  | some s =>
    match parse_auction_date s with
    | none => false
    | some ord =>
      decide ((ord : ℚ) ≥ min_date) &&
      (match max_date with
       | none => true
       | some mx => decide ((ord : ℚ) ≤ mx))

/-- `filter_by_date_range` from src/app/filter_logic.py.  `now` is the value
of `datetime.now()` (a rational day count: integer part is the day ordinal,
fractional part the time of day), fixed as a parameter of the embedding.
Note the Python truthiness test `if max_days_from_now`: a supplied value of 0
produces no upper bound. -/
def filter_by_date_range (now : ℚ) (records : List Record) (min_days_from_now : Int := 7) (max_days_from_now : Option Int := none) : List Record :=
  let min_date : ℚ := now + (min_days_from_now : ℚ)
  let max_date : Option ℚ :=
    match max_days_from_now with
    | some d => if d ≠ 0 then some (now + (d : ℚ)) else none
    | none => none
  records.filter (dateRangeKeep min_date max_date)

/-- `filter_by_property_type` from src/app/filter_logic.py: a truthy property
type that contains, case-insensitively, one of the requested substrings. -/
def filter_by_property_type (records : List Record) (property_types : List String) : List Record :=
  records.filter (fun r =>
    strTruthy r.typ_nieruchomosci &&
    property_types.any (fun t =>
      pyIn (pyLower t) (pyLower (r.typ_nieruchomosci.getD ""))))

/-- The per-record test of `filter_by_discount` once a threshold is given:
records with truthy discount text are kept when the first integer in the text
exists and is ≥ the threshold; records without discount text are kept exactly
when the threshold is 0. -/
def discountKeep (min_discount : Int) (r : Record) : Bool :=
  let discount_text := r.obnizka.getD ""
  if discount_text ≠ "" then
    match firstIntIn discount_text with
    | some n => decide ((n : Int) ≥ min_discount)
    | none => false
  else decide (min_discount = 0)

/-- `filter_by_discount` from src/app/filter_logic.py. -/
def filter_by_discount (records : List Record) (min_discount : Option Int := none) : List Record :=
  match min_discount with
  | none => records
  | some mn => records.filter (discountKeep mn)

/-- The statistics dictionary produced by `calculate_stats`. -/
structure Stats where
  count : Nat
  avg_area : ℚ
  avg_price : ℚ
  min_price : ℚ
  max_price : ℚ
  avg_price_per_hectare : ℚ
deriving DecidableEq, Repr

/-- The `price_per_hectare` list built inside `calculate_stats`: one entry
`price / area` per record whose area is truthy, price is truthy, and area is
strictly positive (Python `if area and price and area > 0`). -/
def pricePerHectareList (records : List Record) : List ℚ :=
  records.filterMap (fun r =>
    match r.powierzchnia_ogolna, r.cena_wywolawcza with
    | some a, some p => if a ≠ 0 ∧ p ≠ 0 ∧ a > 0 then some (p / a) else none
    | _, _ => none)

/-- `calculate_stats` from src/app/filter_logic.py. -/
def calculate_stats (records : List Record) : Stats :=
  if records = [] then
    { count := 0, avg_area := 0, avg_price := 0, min_price := 0,
      max_price := 0, avg_price_per_hectare := 0 }
  else
    let areas := records.filterMap (fun r => r.powierzchnia_ogolna)
    let prices := records.filterMap (fun r => r.cena_wywolawcza)
    let pph := pricePerHectareList records
    { count := records.length
      avg_area := if areas = [] then 0 else areas.sum / (areas.length : ℚ)
      avg_price := if prices = [] then 0 else prices.sum / (prices.length : ℚ)
      min_price := match prices with
        | [] => 0
        | p :: rest => rest.foldl min p
      max_price := match prices with
        | [] => 0
        | p :: rest => rest.foldl max p
      avg_price_per_hectare := if pph = [] then 0 else pph.sum / (pph.length : ℚ) }

/-- The filter configuration dictionary accepted by `filter_records`.
`none` models a key that is absent. -/
structure Filters where
  location : Option String := none
  counties : Option (List String) := none
  form : Option String := none
  min_area : Option ℚ := none
  max_area : Option ℚ := none
  min_price : Option ℚ := none
  max_price : Option ℚ := none
  min_days_from_now : Option Int := none
  max_days_from_now : Option Int := none
  property_types : Option (List String) := none
  min_discount : Option Int := none
  best_offers_only : Bool := false
deriving DecidableEq, Repr

/-- The `filters.update({...})` performed by the "best offers" preset:
the six preset keys overwrite whatever the caller supplied. -/
def applyBestOffersPreset (f : Filters) : Filters :=
  if f.best_offers_only then
    { f with
      location := some "Trzebownisko"
      counties := some ["łańcucki", "ropczycko sędziszowski", "rzeszowski"]
      form := some "sprzedaż"
      min_area := some (8 / 100)
      max_price := some 20000
      min_days_from_now := some 7 }
  else f

/-- Truthiness of an optional list: present and non-empty. -/
def listTruthy {α : Type} : Option (List α) → Bool
  | none => false
  | some [] => false
  | some (_ :: _) => true

/-- The stage chain of `filter_records` (src/app/filter_logic.py lines
342-382): apply the stage filters in the fixed source order, each guarded by
the same truthiness / presence test as the source.  `f` is the configuration
after preset expansion. -/
def filter_records_core (now : ℚ) (f : Filters) (records : List Record) : List Record :=
  let r1 := if strTruthy f.location then filter_by_location records (f.location.getD "") else records
    let r2 := if listTruthy f.counties then filter_by_counties r1 (f.counties.getD []) else r1
    let r3 := filter_by_form r2 (f.form.getD "sprzedaż")
    let r4 := match f.min_area with
      | some mn => filter_by_area r3 mn f.max_area
      | none => r3
    let r5 := if f.min_price.isSome || f.max_price.isSome
      then filter_by_price r4 f.min_price f.max_price
      else r4
    let r6 := filter_by_date_range now r5 (f.min_days_from_now.getD 7) f.max_days_from_now
    let r7 := if listTruthy f.property_types then filter_by_property_type r6 (f.property_types.getD []) else r6
    let r8 := match f.min_discount with
      | some mn => filter_by_discount r7 (some mn)
      | none => r7
    r8

/-- `filter_records` from src/app/filter_logic.py: an empty input
short-circuits to an empty result; otherwise the "best offers" preset is
expanded and the stage chain runs. -/
def filter_records (now : ℚ) (records : List Record) (filters : Filters := {}) : List Record :=
  if records = [] then []
  else filter_records_core now (applyBestOffersPreset filters) records

/-! ### Claim-side definitions

These definitions follow the wording of spec claims (for refinement-style
comparison with the code-derived definitions above), plus concrete sample
inputs used by counterexamples and witnesses. -/

/-- Claim-side date-window predicate, following C2's words: the record is
kept iff its date parses and lies in `[now + min, now + max]` inclusive,
where the upper bound is applied whenever `max_days_from_now` is supplied —
including the value 0. -/
def dateWindowClaim (now : ℚ) (min_days_from_now : Int) (max_days_from_now : Option Int) (r : Record) : Bool :=
  match r.data_godzina with
  | none => false
  | some s =>
    match parse_auction_date s with
    | none => false
    | some ord =>
      decide (now + (min_days_from_now : ℚ) ≤ (ord : ℚ)) &&
      (match max_days_from_now with
       | some d => decide ((ord : ℚ) ≤ now + (d : ℚ))
       | none => true)

/-- Amended date-window predicate: as `dateWindowClaim`, except the upper
bound is applied only when `max_days_from_now` is supplied **and nonzero**
(Python truthiness of the integer). -/
def dateWindowAmended (now : ℚ) (min_days_from_now : Int) (max_days_from_now : Option Int) (r : Record) : Bool :=
  match r.data_godzina with
  | none => false
  | some s =>
    match parse_auction_date s with
    | none => false
    | some ord =>
      decide (now + (min_days_from_now : ℚ) ≤ (ord : ℚ)) &&
      (match max_days_from_now with
       | some d => if d ≠ 0 then decide ((ord : ℚ) ≤ now + (d : ℚ)) else true
       | none => true)

/-- Claim-side qualifying test for C3: the record has a present price
(a price of 0 still counts) and a total area strictly greater than 0. -/
def pphQualifiesClaim (r : Record) : Bool :=
  (match r.powierzchnia_ogolna with
   | some a => decide (0 < a)
   | none => false) &&
  (match r.cena_wywolawcza with
   | some _ => true
   | none => false)

/-- Claim-side average price per hectare for C3: the mean of price/area over
the qualifying records, 0 when none qualifies. -/
def avgPricePerHectareClaim (records : List Record) : ℚ :=
  let qual := records.filter pphQualifiesClaim
  if qual = [] then 0
  else (qual.map (fun r => r.cena_wywolawcza.getD 0 / r.powierzchnia_ogolna.getD 0)).sum / (qual.length : ℚ)

/-- Amended qualifying test for C3: present **nonzero** price, and total
area strictly greater than 0. -/
def pphQualifiesAmended (r : Record) : Bool :=
  (match r.powierzchnia_ogolna with
   | some a => decide (0 < a)
   | none => false) &&
  (match r.cena_wywolawcza with
   | some p => decide (p ≠ 0)
   | none => false)

/-- Amended average price per hectare: the mean of price/area over records
with a positive area and a present nonzero price, 0 when none qualifies. -/
def avgPricePerHectareAmended (records : List Record) : ℚ :=
  let qual := records.filter pphQualifiesAmended
  if qual = [] then 0
  else (qual.map (fun r => r.cena_wywolawcza.getD 0 / r.powierzchnia_ogolna.getD 0)).sum / (qual.length : ℚ)

/-- Claim-side discount predicate for C5: a record with non-empty discount
text is kept iff the first integer in the text exists and is ≥ the
threshold; a record with empty or absent discount text is kept iff the
threshold is exactly 0. -/
def discountClaimKeep (min_discount : Int) (r : Record) : Bool :=
  match r.obnizka with
  | some s =>
    if s ≠ "" then
      match firstIntIn s with
      | some n => decide ((n : Int) ≥ min_discount)
      | none => false
    else decide (min_discount = 0)
  | none => decide (min_discount = 0)

/-- A record carrying only an auction date (2025-04-15), used by the C2
counterexample. -/
def recDated : Record := { data_godzina := some "15.04.2025\n9:00" }

/-- A record with area 2 ha and price 0 (present but zero). -/
def recPriceZero : Record := { powierzchnia_ogolna := some 2, cena_wywolawcza := some 0 }

/-- A record with area 2 ha and price 10. -/
def recPriceTen : Record := { powierzchnia_ogolna := some 2, cena_wywolawcza := some 10 }

/-- A 12-cell raw row that `process_table_row` accepts, with a discount in
column 8. -/
def rowSample : List (Option String) :=
  [some "1", none, some "15.04.2025\n9:00", some "Rzeszów", none, none,
   none, none, some "obniżka 30%", none, none, none]

/-- The record `process_table_row` builds from `rowSample`. -/
def recSample : Record :=
  { lp := some 1
    data_godzina := some "15.04.2025\n9:00"
    miejsce := some "Rzeszów"
    typ_nieruchomosci := some ""
    charakter_nieruchomosci := some ""
    atrybuty := some ""
    obnizka := some "obniżka 30%" }

/-- A configuration that only requests the "best offers" preset. -/
def presetOnlyFilters : Filters := { best_offers_only := true }

/-- A list transformer that is extensionally a `List.filter` with some fixed
predicate.  Every stage of the filter engine has this shape. -/
def FilterLike (F : List Record → List Record) : Prop :=
  ∃ p : Record → Bool, ∀ l, F l = l.filter p

/-! ### Helper lemmas -/

theorem filterLike_id : FilterLike (fun l => l) :=
  ⟨fun _ => true, fun l => by simp⟩

theorem FilterLike.comp {F G : List Record → List Record}
    (hF : FilterLike F) (hG : FilterLike G) : FilterLike (fun l => G (F l)) := by
  obtain ⟨p, hp⟩ := hF
  obtain ⟨q, hq⟩ := hG
  exact ⟨fun a => q a && p a, fun l => by
    show G (F l) = List.filter (fun a => q a && p a) l
    rw [hp, hq, List.filter_filter]⟩

theorem filterLike_by_area (mn : ℚ) (mx : Option ℚ) :
    FilterLike (fun rs => filter_by_area rs mn mx) := by
  cases mx with
  | none => exact ⟨_, fun l => rfl⟩
  | some m =>
    refine ⟨fun r => ((r.powierzchnia_ogolna.getD 0) ≤ m : Bool) &&
      (match r.powierzchnia_ogolna with
       | none => false
       | some a => a ≥ mn), fun l => ?_⟩
    simp [filter_by_area, List.filter_filter]

theorem filterLike_by_price (mnp mxp : Option ℚ) :
    FilterLike (fun rs => filter_by_price rs mnp mxp) := by
  cases mnp with
  | none =>
    cases mxp with
    | none => exact ⟨fun _ => true, fun l => by simp [filter_by_price]⟩
    | some mx => exact ⟨_, fun l => rfl⟩
  | some mn =>
    cases mxp with
    | none => exact ⟨_, fun l => rfl⟩
    | some mx =>
      refine ⟨fun r => (match r.cena_wywolawcza with
        | none => false
        | some p => p ≤ mx) &&
        (match r.cena_wywolawcza with
         | none => false
         | some p => p ≥ mn), fun l => ?_⟩
      simp [filter_by_price, List.filter_filter]

theorem filterLike_core (now : ℚ) (f : Filters) :
    FilterLike (filter_records_core now f) := by
  have h1 : FilterLike (fun rs =>
      if strTruthy f.location then filter_by_location rs (f.location.getD "") else rs) := by
    by_cases h : strTruthy f.location = true
    · simpa [h] using (⟨_, fun _ => rfl⟩ :
        FilterLike (fun rs => filter_by_location rs (f.location.getD "")))
    · simpa [h] using filterLike_id
  have h2 : FilterLike (fun rs =>
      if listTruthy f.counties then filter_by_counties rs (f.counties.getD []) else rs) := by
    by_cases h : listTruthy f.counties = true
    · simpa [h] using (⟨_, fun _ => rfl⟩ :
        FilterLike (fun rs => filter_by_counties rs (f.counties.getD [])))
    · simpa [h] using filterLike_id
  have h3 : FilterLike (fun rs => filter_by_form rs (f.form.getD "sprzedaż")) :=
    ⟨_, fun _ => rfl⟩
  have h4 : FilterLike (fun rs => match f.min_area with
      | some mn => filter_by_area rs mn f.max_area
      | none => rs) := by
    cases h : f.min_area with
    | none => simpa [h] using filterLike_id
    | some mn => simpa [h] using filterLike_by_area mn f.max_area
  have h5 : FilterLike (fun rs => if f.min_price.isSome || f.max_price.isSome
      then filter_by_price rs f.min_price f.max_price else rs) := by
    by_cases h : (f.min_price.isSome || f.max_price.isSome) = true
    · simpa [h] using filterLike_by_price f.min_price f.max_price
    · simpa [h] using filterLike_id
  have h6 : FilterLike (fun rs =>
      filter_by_date_range now rs (f.min_days_from_now.getD 7) f.max_days_from_now) :=
    ⟨_, fun _ => rfl⟩
  have h7 : FilterLike (fun rs =>
      if listTruthy f.property_types then filter_by_property_type rs (f.property_types.getD []) else rs) := by
    by_cases h : listTruthy f.property_types = true
    · simpa [h] using (⟨_, fun _ => rfl⟩ :
        FilterLike (fun rs => filter_by_property_type rs (f.property_types.getD [])))
    · simpa [h] using filterLike_id
  have h8 : FilterLike (fun rs => match f.min_discount with
      | some mn => filter_by_discount rs (some mn)
      | none => rs) := by
    cases h : f.min_discount with
    | none => simpa [h] using filterLike_id
    | some mn => simpa [h] using (⟨_, fun _ => rfl⟩ :
        FilterLike (fun rs => filter_by_discount rs (some mn)))
  exact ((((((h1.comp h2).comp h3).comp h4).comp h5).comp h6).comp h7).comp h8

theorem filter_records_filterLike (now : ℚ) (f : Filters) :
    ∃ p : Record → Bool, ∀ rs, filter_records now rs f = rs.filter p := by
  obtain ⟨p, hp⟩ := filterLike_core now (applyBestOffersPreset f)
  refine ⟨p, fun rs => ?_⟩
  by_cases h : rs = []
  · subst h; simp [filter_records]
  · rw [filter_records, if_neg h, hp rs]

theorem filter_self_filter {α : Type} (p : α → Bool) (l : List α) :
    (l.filter p).filter p = l.filter p := by
  induction l with
  | nil => rfl
  | cons a t ih =>
    by_cases h : p a = true <;> simp [List.filter_cons, h, ih]

theorem foldl_min_le (x : ℚ) (l : List ℚ) : l.foldl min x ≤ x := by
  induction l generalizing x with
  | nil => exact le_refl x
  | cons a t ih => exact le_trans (ih (min x a)) (min_le_left x a)

theorem le_foldl_max (x : ℚ) (l : List ℚ) : x ≤ l.foldl max x := by
  induction l generalizing x with
  | nil => exact le_refl x
  | cons a t ih => exact le_trans (le_max_left x a) (ih (max x a))

theorem matchDiscount_digits {cs ds rest : List Char}
    (h : matchDiscount cs = some (ds, rest)) :
    ds ≠ [] ∧ ds.all Char.isDigit := by
  unfold matchDiscount at h
  split at h
  · split at h
    · split at h
      · exact absurd h (by simp)
      · split at h
        · exact absurd h (by simp)
        · next hds =>
          split at h
          · cases h
            refine ⟨hds, List.all_eq_true.mpr (fun c hc => ?_)⟩
            exact List.mem_takeWhile_imp hc
          · exact absurd h (by simp)
    · exact absurd h (by simp)
  · exact absurd h (by simp)

theorem searchDiscount_digits :
    ∀ cs ds, searchDiscount cs = some ds → ds ≠ [] ∧ ds.all Char.isDigit := by
  intro cs
  induction cs with
  | nil => intro ds h; simp [searchDiscount] at h
  | cons c t ih =>
    intro ds h
    unfold searchDiscount at h
    rcases hm : matchDiscount (c :: t) with _ | ⟨ds0, rest0⟩
    · rw [hm] at h; exact ih ds h
    · rw [hm] at h
      obtain rfl : ds0 = ds := Option.some.inj h
      exact matchDiscount_digits hm

theorem extract_discount_shape (t : Option String) :
    (extract_attributes_and_discount t).2 = "" ∨
    ∃ ds : List Char, ds ≠ [] ∧ ds.all Char.isDigit ∧
      (extract_attributes_and_discount t).2 = "obniżka " ++ String.mk ds ++ "%" := by
  cases t with
  | none => exact Or.inl rfl
  | some s =>
    by_cases hs : s = ""
    · left; simp [extract_attributes_and_discount, hs]
    cases hd : searchDiscount (s.data.map pyLowerChar) with
    | none => left; simp [extract_attributes_and_discount, hs, hd]
    | some ds =>
      right
      obtain ⟨h1, h2⟩ := searchDiscount_digits _ _ hd
      exact ⟨ds, h1, h2, by simp [extract_attributes_and_discount, hs, hd]⟩

theorem firstDigitRun_append_of_no_digit (pre l : List Char)
    (h : ∀ c ∈ pre, c.isDigit = false) :
    firstDigitRun (pre ++ l) = firstDigitRun l := by
  induction pre with
  | nil => rfl
  | cons c p ih =>
    have hc : c.isDigit = false := h c (List.mem_cons_self c p)
    simp only [List.cons_append, firstDigitRun, hc, Bool.false_eq_true, if_false]
    exact ih (fun d hd => h d (List.mem_cons_of_mem c hd))

theorem takeWhile_digits_append (ds r : List Char) (h : ds.all Char.isDigit) :
    (ds ++ '%' :: r).takeWhile Char.isDigit = ds := by
  induction ds with
  | nil => simp [List.takeWhile]
  | cons d dt ih =>
    simp only [List.all_cons, Bool.and_eq_true] at h
    simp only [List.cons_append, List.takeWhile, h.1, List.append_eq]
    rw [ih h.2]

theorem firstIntIn_canonical (ds : List Char) (h1 : ds ≠ []) (h2 : ds.all Char.isDigit) :
    firstIntIn ("obniżka " ++ String.mk ds ++ "%") = some (digitsToNat ds) := by
  have hdata : ("obniżka " ++ String.mk ds ++ "%").data =
      "obniżka ".data ++ (ds ++ ['%']) := by
    simp [String.data_append]
  unfold firstIntIn
  rw [hdata, firstDigitRun_append_of_no_digit _ _ (by decide)]
  cases ds with
  | nil => exact absurd rfl h1
  | cons d dt =>
    simp only [List.all_cons, Bool.and_eq_true] at h2
    simp only [List.cons_append, firstDigitRun, h2.1, if_true, List.append_eq]
    rw [takeWhile_digits_append dt [] h2.2]
    rfl

theorem pricePerHectareList_cons (r : Record) (t : List Record) :
    pricePerHectareList (r :: t) =
      if pphQualifiesAmended r = true
      then (r.cena_wywolawcza.getD 0 / r.powierzchnia_ogolna.getD 0) :: pricePerHectareList t
      else pricePerHectareList t := by
  rcases ha : r.powierzchnia_ogolna with _ | a <;> rcases hp : r.cena_wywolawcza with _ | p <;>
    simp only [pricePerHectareList, List.filterMap_cons, pphQualifiesAmended, ha, hp,
      Bool.false_and, Bool.and_false, Bool.false_eq_true, if_false]
  by_cases h : 0 < a ∧ p ≠ 0
  · have h2 : ¬a = 0 ∧ ¬p = 0 ∧ 0 < a := ⟨ne_of_gt h.1, h.2, h.1⟩
    simp [h, h2, Option.getD]
  · have h2 : ¬(¬a = 0 ∧ ¬p = 0 ∧ 0 < a) := by
      intro hx; exact h ⟨hx.2.2, hx.2.1⟩
    simp [h, h2]

theorem pricePerHectareList_eq (rs : List Record) :
    pricePerHectareList rs = (rs.filter pphQualifiesAmended).map
      (fun r => r.cena_wywolawcza.getD 0 / r.powierzchnia_ogolna.getD 0) := by
  induction rs with
  | nil => rfl
  | cons r t ih =>
    rw [pricePerHectareList_cons, List.filter_cons]
    by_cases hq : pphQualifiesAmended r = true <;> simp [hq, ih]

/-! ### Claim theorems -/

/-- C1 counterexample: on the spec's own example string, the attribute text
returned by `extract_attributes_and_discount` is NOT `"duża działka narożna"`
— removing the discount phrase leaves the two surrounding spaces in place and
only leading/trailing whitespace is trimmed. -/
theorem C1_counterexample :
    extract_attributes_and_discount (some "duża działka obniżka 30% narożna") ≠
      ("duża działka narożna", "obniżka 30%") := by decide

/-- C1 (amended): `extract_attributes_and_discount` on
`"duża działka obniżka 30% narożna"` returns the pair
`("duża działka  narożna", "obniżka 30%")`: the discount phrase is removed
(leaving a double space where it stood, since only leading and trailing
whitespace is trimmed) and the discount is returned canonically. -/
theorem C1_split_attributes_discount_amended :
    extract_attributes_and_discount (some "duża działka obniżka 30% narożna") =
      ("duża działka  narożna", "obniżka 30%") := by decide

/-- C5: when no threshold is supplied `filter_by_discount` returns the
records unchanged; with a threshold, a record with non-empty discount text is
kept iff the first integer in that text exists and is ≥ the threshold, and a
record with empty or absent discount text is kept iff the threshold is
exactly zero. -/
theorem C5_filter_by_discount_spec (rs : List Record) (m : Int) :
    filter_by_discount rs none = rs ∧
    filter_by_discount rs (some m) = rs.filter (discountClaimKeep m) := by
  refine ⟨rfl, ?_⟩
  unfold filter_by_discount
  refine List.filter_congr (fun r _ => ?_)
  unfold discountKeep discountClaimKeep
  cases r.obnizka with
  | none => rfl
  | some s => rfl

/-- C8: `safe_float` is total and never raises: on `None` or non-string
input it returns the fallback; on a string it returns either the fallback or
the float parsed from the cleaned text; on garbage such as `"N/A"` it returns
the fallback. -/
theorem C8_safe_float_total (s : String) (d : Option ℚ) :
    safe_float none d = d ∧
    (safe_float (some s) d = d ∨
      ∃ q, pyFloatParse (cleanNumeric s) = some q ∧ safe_float (some s) d = some q) ∧
    safe_float (some "N/A") d = d := by
  refine ⟨rfl, ?_, ?_⟩
  · by_cases h1 : s = ""
    · left; simp [safe_float, h1]
    by_cases h2 : cleanNumeric s = []
    · left; simp [safe_float, h1, h2]
    cases hp : pyFloatParse (cleanNumeric s) with
    | none => left; simp [safe_float, h1, h2, hp]
    | some q => right; exact ⟨q, hp ▸ rfl, by simp [safe_float, h1, h2, hp]⟩
  · have h : cleanNumeric "N/A" = [] := by decide
    simp [safe_float, h]

/-- C10: the statistics returned by `calculate_stats` always satisfy
`min_price ≤ max_price`: both are 0 when no price is present, and otherwise
they are the minimum and maximum of the same non-empty price list. -/
theorem C10_min_price_le_max_price (rs : List Record) :
    (calculate_stats rs).min_price ≤ (calculate_stats rs).max_price := by
  unfold calculate_stats
  by_cases h : rs = []
  · simp [h]
  · simp only [h, if_false]
    cases hp : rs.filterMap (fun r => r.cena_wywolawcza) with
    | nil => simp
    | cons p t => exact le_trans (foldl_min_le p t) (le_foldl_max p t)

/-- C4: when `best_offers_only` is set, `filter_records` behaves exactly as
if location, counties, form, min_area, max_price and min_days_from_now were
set to the preset's literal constants, overwriting any individually supplied
values for those options. -/
theorem C4_best_offers_preset_overrides (now : ℚ) (rs : List Record) (f : Filters)
    (h : f.best_offers_only = true) :
    filter_records now rs f = filter_records now rs
      { f with
        location := some "Trzebownisko"
        counties := some ["łańcucki", "ropczycko sędziszowski", "rzeszowski"]
        form := some "sprzedaż"
        min_area := some (8 / 100)
        max_price := some 20000
        min_days_from_now := some 7
        best_offers_only := false } := by
  obtain ⟨l, c, fo, mna, mxa, mnp, mxp, mnd, mxd, pt, md, bo⟩ := f
  simp only at h
  subst h
  rfl

/-- C4 witness: the preset-override equivalence at a concrete configuration
and record list. -/
theorem C4_best_offers_preset_overrides_witness :
    filter_records 0 [{}] presetOnlyFilters = filter_records 0 [{}]
      { presetOnlyFilters with
        location := some "Trzebownisko"
        counties := some ["łańcucki", "ropczycko sędziszowski", "rzeszowski"]
        form := some "sprzedaż"
        min_area := some (8 / 100)
        max_price := some 20000
        min_days_from_now := some 7
        best_offers_only := false } :=
  C4_best_offers_preset_overrides 0 [{}] presetOnlyFilters rfl

/-- C6: `filter_records` is idempotent — applying the same configuration to
an already-filtered collection returns it unchanged. -/
theorem C6_filter_records_idempotent (now : ℚ) (rs : List Record) (f : Filters) :
    filter_records now (filter_records now rs f) f = filter_records now rs f := by
  obtain ⟨p, hp⟩ := filter_records_filterLike now f
  rw [hp, hp, filter_self_filter]

/-- C7: every individual filter and the orchestrator return a subsequence of
their input list: each output is a `List.Sublist` of the input, so every kept
record occurs in the input, no duplicates are introduced, and relative order
is preserved. -/
theorem C7_filters_preserve_subsequence (now : ℚ) (rs : List Record)
    (loc : String) (cos : List String) (frm : String) (mna : ℚ) (mxa : Option ℚ)
    (mnp mxp : Option ℚ) (mnd : Int) (mxd : Option Int) (pts : List String)
    (mdis : Option Int) (f : Filters) :
    List.Sublist (filter_by_location rs loc) rs ∧
    List.Sublist (filter_by_counties rs cos) rs ∧
    List.Sublist (filter_by_form rs frm) rs ∧
    List.Sublist (filter_by_area rs mna mxa) rs ∧
    List.Sublist (filter_by_price rs mnp mxp) rs ∧
    List.Sublist (filter_by_date_range now rs mnd mxd) rs ∧
    List.Sublist (filter_by_property_type rs pts) rs ∧
    List.Sublist (filter_by_discount rs mdis) rs ∧
    List.Sublist (filter_records now rs f) rs := by
  obtain ⟨pa, ha⟩ := filterLike_by_area mna mxa
  obtain ⟨pp, hpp⟩ := filterLike_by_price mnp mxp
  obtain ⟨pf, hf⟩ := filter_records_filterLike now f
  refine ⟨List.filter_sublist rs, List.filter_sublist rs, List.filter_sublist rs,
    ?_, ?_, List.filter_sublist rs, List.filter_sublist rs, ?_, ?_⟩
  · rw [show filter_by_area rs mna mxa = rs.filter pa from ha rs]
    exact List.filter_sublist rs
  · rw [show filter_by_price rs mnp mxp = rs.filter pp from hpp rs]
    exact List.filter_sublist rs
  · cases mdis with
    | none => exact List.Sublist.refl rs
    | some m => exact List.filter_sublist rs
  · rw [hf rs]
    exact List.filter_sublist rs

/-- C2 counterexample: with `now = 0`, `min_days_from_now = 0` and
`max_days_from_now = 0` supplied, the code keeps a record dated 2025-04-15
even though the claim's upper bound `now + 0` would exclude it — a supplied
value of 0 disables the upper bound (Python truthiness), contradicting the
claim's "including the value 0". -/
theorem C2_counterexample :
    filter_by_date_range 0 [recDated] 0 (some 0) = [recDated] ∧
    dateWindowClaim 0 0 (some 0) recDated = false := by
  have hp : parse_auction_date "15.04.2025\n9:00" = some 739356 := by decide
  constructor
  · simp only [filter_by_date_range, dateRangeKeep, recDated, hp, ne_eq,
      not_true_eq_false, if_false, List.filter_cons, List.filter_nil]
    norm_num
  · simp only [dateWindowClaim, recDated, hp]
    norm_num

/-- C2 (amended): `filter_by_date_range` keeps exactly the records whose
date parses and lies in the inclusive window, where the upper bound is
applied only when `max_days_from_now` is supplied **and nonzero**; records
with absent or unparsable dates are always excluded. -/
theorem C2_filter_by_date_range_amended (now : ℚ) (rs : List Record)
    (mnd : Int) (mxd : Option Int) :
    filter_by_date_range now rs mnd mxd = rs.filter (dateWindowAmended now mnd mxd) := by
  unfold filter_by_date_range
  refine List.filter_congr (fun r _ => ?_)
  unfold dateRangeKeep dateWindowAmended
  rcases hdg : r.data_godzina with _ | s
  · rfl
  · simp only [hdg]
    rcases hpd : parse_auction_date s with _ | ord
    · rfl
    · rcases mxd with _ | d
      · simp [ge_iff_le]
      · by_cases hd : d = 0 <;> simp [hd, ge_iff_le]

/-- C3 counterexample: for two records of area 2 with prices 0 and 10, the
code averages only over the record with nonzero price (giving 5), while the
claim's average — price 0 counting as present — would be 5/2. -/
theorem C3_counterexample :
    (calculate_stats [recPriceZero, recPriceTen]).avg_price_per_hectare = 5 ∧
    avgPricePerHectareClaim [recPriceZero, recPriceTen] = 5 / 2 ∧
    (5 : ℚ) ≠ 5 / 2 := by
  have hpph : pricePerHectareList [recPriceZero, recPriceTen] = [5] := by
    norm_num [pricePerHectareList, List.filterMap, recPriceZero, recPriceTen]
  refine ⟨?_, ?_, by norm_num⟩
  · unfold calculate_stats
    rw [if_neg (by simp)]
    simp only [hpph]
    norm_num
  · have hq : [recPriceZero, recPriceTen].filter pphQualifiesClaim =
        [recPriceZero, recPriceTen] := by
      norm_num [pphQualifiesClaim, recPriceZero, recPriceTen, List.filter]
    simp only [avgPricePerHectareClaim, hq]
    rw [if_neg (by simp)]
    norm_num [recPriceZero, recPriceTen]

/-- C3 (amended): `avg_price_per_hectare` is the mean of price/area over
exactly those records that have a present **nonzero** price and a total area
strictly greater than 0 (a present price of 0 does not qualify, by Python
truthiness), and is 0 when no record qualifies. -/
theorem C3_avg_price_per_hectare_amended (rs : List Record) :
    (calculate_stats rs).avg_price_per_hectare = avgPricePerHectareAmended rs := by
  unfold calculate_stats avgPricePerHectareAmended
  by_cases h : rs = []
  · subst h; simp
  · simp only [h, if_false]
    rw [pricePerHectareList_eq]
    simp [List.map_eq_nil_iff, List.length_map]

/-- C9: every record built by `process_table_row` has a discount-text field
that is either the empty string or exactly the canonical `"obniżka N%"` for a
non-empty digit run `N`; in the latter case the first digit run of the text —
the integer `filter_by_discount` reads via `firstIntIn` — is exactly `N`. -/
theorem C9_discount_text_canonical (row : List (Option String)) (r : Record)
    (h : process_table_row row = some r) :
    r.obnizka = some "" ∨
    ∃ ds : List Char, ds ≠ [] ∧ ds.all Char.isDigit ∧
      r.obnizka = some ("obniżka " ++ String.mk ds ++ "%") ∧
      firstIntIn ("obniżka " ++ String.mk ds ++ "%") = some (digitsToNat ds) := by
  have hob : r.obnizka = some (extract_attributes_and_discount (row.getD 8 none)).2 := by
    simp only [process_table_row] at h
    repeat' split at h
    all_goals cases h
    all_goals rfl
  rcases extract_discount_shape (row.getD 8 none) with he | ⟨ds, h1, h2, he⟩
  · left; rw [hob, he]
  · right; exact ⟨ds, h1, h2, by rw [hob, he], firstIntIn_canonical ds h1 h2⟩

/-- C9 witness: a concrete accepted row whose discount cell reads
`"obniżka 30%"`, with the canonical-shape conclusion instantiated. -/
theorem C9_discount_text_canonical_witness :
    process_table_row rowSample = some recSample ∧
    (recSample.obnizka = some "" ∨
     ∃ ds : List Char, ds ≠ [] ∧ ds.all Char.isDigit ∧
       recSample.obnizka = some ("obniżka " ++ String.mk ds ++ "%") ∧
       firstIntIn ("obniżka " ++ String.mk ds ++ "%") = some (digitsToNat ds)) :=
  ⟨by decide, C9_discount_text_canonical rowSample recSample (by decide)⟩
